import Mathlib

/-!
Shallow embedding of the gowk/sql query-generation core (src/executor.go and
src/db.go) and proofs about it.

Conventions of the embedding:
* A record's field values are a `List α` indexed by field position; the cached
  per-type `fieldInfo` (built by `getFieldInfo`, cached in `typeToFieldInfo`)
  is a pair of parallel lists `names`/`indexes`.
* `bytes.Buffer` accumulation is ordinary string concatenation;
  `buf.Truncate(buf.Len()-1)` is `truncLast` (every truncation site in the
  source truncates an ASCII byte — `,`, `(` or a space — so dropping the last
  character is dropping the last byte).
* Panics are the `GoPanic` error of an `Except`; a returned Go `error` is an
  `Option String` / `Except String`.
-/

namespace GoSql

/-- The panics raised by the executor, with the messages used in the source. -/
inductive GoPanic where
  | invalid          -- panic("invalid")
  | notStruct        -- panic("not struct")
  | notPtrSlice      -- panic("must be a pointer to slice")
  | cannotSet        -- panic("cannot be set value")
  | elemNotStruct    -- panic("slice element must be a struct or pointer to struct")
  deriving DecidableEq, Repr

/-- The cached per-type field mapping (`fieldInfo` in the source): parallel
lists of column names and struct-field indexes.  `getFieldInfo` itself is not
under src/; the invariants its results satisfy (equal lengths, distinct field
indexes, indexes valid for the struct) appear as hypotheses where needed. -/
structure FieldInfo where
  names : List String
  indexes : List Nat
  deriving DecidableEq, Repr

/-- A Go `reflect.Value` as far as `getFields` inspects one: invalid, a nil
pointer, a non-nil pointer to another value, a struct value (tagged with its
type's cached `FieldInfo` and carrying its field slots), or a value of any
other kind. -/
inductive RValue (α : Type) where
  | invalid : RValue α
  | ptrNil : RValue α
  | ptr : RValue α → RValue α
  | structV : FieldInfo → List α → RValue α
  | nonStruct : RValue α
  deriving DecidableEq, Repr

/-- The `record interface{}` argument of Insert/Update/Upsert: either the
`map[string]interface{}` escape hatch (entries in iteration order) or any
other value, which goes through `getFields`. -/
inductive Record (α : Type) where
  | map : List (String × α) → Record α
  | val : RValue α → Record α
  deriving DecidableEq, Repr

/-- The `for v.Kind() == reflect.Ptr && !v.IsNil() { v = v.Elem() }` loop
at the top of `getFields`: strip non-nil pointer indirection. -/
def derefs : RValue α → RValue α
  | .ptr v => derefs v
  | v => v

/-- `executor.getFields` combined with `getFieldValues`: dereference the
pointer chain, panic on invalid or non-struct values, otherwise return the
cached column names and the field values selected by the cached indexes
(`values[i] = v.Field(info.indexes[i])`). -/
def getFields [Inhabited α] : RValue α → Except GoPanic (List String × List α)
  | .invalid => .error .invalid
  | .ptr v => getFields v
  | .ptrNil => .error .notStruct
  | .nonStruct => .error .notStruct
  | .structV fi fields => .ok (fi.names, fi.indexes.map (fun idx => fields.getD idx default))

/-- `strings.Repeat s n`. -/
def stringsRepeat (s : String) : Nat → String
  | 0 => ""
  | n + 1 => s ++ stringsRepeat s n

/-- `buf.Truncate(buf.Len() - 1)`: drop the final byte of the buffer. -/
def truncLast (s : String) : String := ⟨s.data.dropLast⟩

/-- The SQL text built by `executor.Insert`:
`"insert into " + table + "(" + strings.Join(columns, ",") + ") values (" +
strings.Repeat("?,", len(columns))`, then truncate the last byte and close
with `")"`. -/
def insertQuery (table : String) (columns : List String) : String :=
  truncLast ("insert into " ++ table ++ "(" ++ String.intercalate "," columns
      ++ ") values (" ++ stringsRepeat "?," columns.length)
    ++ ")"

/-- `executor.Insert`: query text plus the ordered argument list handed to
`exe.Exec`. -/
def Insert [Inhabited α] (table : String) (record : Record α) :
    Except GoPanic (String × List α) :=
  match record with
  | .map entries => .ok (insertQuery table (entries.map Prod.fst), entries.map Prod.snd)
  | .val v => do
      let cv ← getFields v
      .ok (insertQuery table cv.1, cv.2)

/-- Spec-side shape of the placeholder list: `?`, `?,?`, … (`N` question
marks separated by commas). -/
def placeholders : Nat → String
  | 0 => ""
  | 1 => "?"
  | n + 2 => "?," ++ placeholders (n + 1)

/-- Number of `?` characters in a string. -/
def countQmarks (s : String) : Nat := s.data.count '?'

/-- The `for _, c := range columns { buf.WriteString(c); buf.WriteString(" = ?,") }`
loop of Update and Upsert: each column contributes `c ++ " = ?,"`. -/
def setClauseRaw : List String → String
  | [] => ""
  | c :: cs => c ++ " = ?," ++ setClauseRaw cs

/-- Spec-side shape of the SET/update clause after the final truncation:
assignments separated by commas, one placeholder per column. -/
def setClauseTrim : List String → String
  | [] => ""
  | [c] => c ++ " = ?"
  | c :: c' :: cs => c ++ " = ?," ++ setClauseTrim (c' :: cs)

/-- The SQL text built by `executor.Update`: `"update " + table + " set "`,
the per-column assignment loop, truncate the trailing byte, then the optional
verbatim WHERE clause. -/
def updateQuery (table : String) (columns : List String) (whereStr : String) : String :=
  let base := truncLast ("update " ++ table ++ " set " ++ setClauseRaw columns)
  if 0 < whereStr.length then base ++ " where " ++ whereStr else base

/-- `executor.Update`: query text plus the argument list
`values = append(values, args...)` handed to `exe.Exec`. -/
def Update [Inhabited α] (table : String) (record : Record α) (whereStr : String)
    (args : List α) : Except GoPanic (String × List α) :=
  match record with
  | .map entries =>
      .ok (updateQuery table (entries.map Prod.fst) whereStr,
        entries.map Prod.snd ++ args)
  | .val v => do
      let cv ← getFields v
      .ok (updateQuery table cv.1 whereStr, cv.2 ++ args)

/-- The SQL text built by `executor.Upsert`: the Insert buffer up to the raw
placeholder run, truncate, `") on duplicate key set "`, the per-column
assignment loop, truncate. -/
def upsertQuery (table : String) (columns : List String) : String :=
  truncLast
    (truncLast ("insert into " ++ table ++ "(" ++ String.intercalate "," columns
        ++ ") values (" ++ stringsRepeat "?," columns.length)
      ++ ") on duplicate key set " ++ setClauseRaw columns)

/-- `executor.Upsert`: query text plus the doubled argument list
`values = append(values, values...)` handed to `exe.Exec`. -/
def Upsert [Inhabited α] (table : String) (record : Record α) :
    Except GoPanic (String × List α) :=
  match record with
  | .map entries =>
      .ok (upsertQuery table (entries.map Prod.fst),
        entries.map Prod.snd ++ entries.map Prod.snd)
  | .val v => do
      let cv ← getFields v
      .ok (upsertQuery table cv.1, cv.2 ++ cv.2)

/-- The slice destination behind a valid pointer in `executor.Select`:
whether the element type is `*Struct` or `Struct`, the element type's cached
`FieldInfo`, its number of struct fields (for `reflect.New`'s zero value), and
the slice's current contents (each element its list of field slots). -/
structure SliceDest (α : Type) where
  elemIsPtr : Bool
  fi : FieldInfo
  numFields : Nat
  contents : List (List α)
  deriving DecidableEq, Repr

/-- The `records interface{}` argument of `executor.Select`, as far as its
guard chain inspects it.  `reflect.ValueOf(records)` is never settable, so a
nil pointer always takes the `cannot be set value` panic. -/
inductive Dest (α : Type) where
  | nonPtr : Dest α
  | nilPtr : Dest α
  | ptrToNonSlice : Dest α
  | ptrToSliceNonStructElem : Dest α
  | ok : SliceDest α → Dest α
  deriving DecidableEq, Repr

/-- The SQL text built by `executor.Select`: always the full cached column
list, then the optional verbatim WHERE clause. -/
def selectQueryStr (fi : FieldInfo) (table whereStr : String) : String :=
  let base := "select " ++ String.intercalate "," fi.names ++ " from " ++ table
  if 0 < whereStr.length then base ++ " where " ++ whereStr else base

/-- One iteration of the row loop: `reflect.New(elemType)` allocates an
element of `numFields` zero-valued slots, `fields[i]` is the address of
`elem.Field(fi.indexes[i])`, and `rows.Scan` stores the row's `i`-th column
through `fields[i]`. -/
def scanRow [Inhabited α] (fi : FieldInfo) (numFields : Nat) (row : List α) : List α :=
  (fi.indexes.zip row).foldl (fun elem p => elem.set p.1 p.2)
    (List.replicate numFields default)

/-- What `executor.Select` produces once the destination guards pass: the
query string handed to `exe.Query` and either the propagated query error or
the final slice contents written back by `v.Elem().Set(sliceValue)`. -/
structure SelectOutcome (α : Type) where
  query : String
  result : Except String (List (List α))
  deriving Repr

/-- `executor.Select`.  The external executor is abstracted by `rowsResult`,
the row set (or error) its `Query` returns for the generated query.  Guards
panic in source order before any SQL is built; then each row is scanned into
a freshly allocated element and appended in row-iteration order. -/
def Select [Inhabited α] (table : String) (dest : Dest α) (whereStr : String)
    (rowsResult : Except String (List (List α))) :
    Except GoPanic (SelectOutcome α) :=
  match dest with
  | .nonPtr => .error .notPtrSlice
  | .nilPtr => .error .cannotSet
  | .ptrToNonSlice => .error .notPtrSlice
  | .ptrToSliceNonStructElem => .error .elemNotStruct
  | .ok d =>
      .ok { query := selectQueryStr d.fi table whereStr
            result :=
              match rowsResult with
              | .error e => .error e
              | .ok rows => .ok (d.contents ++ rows.map (scanRow d.fi d.numFields)) }

/-- `executor.SelectOne` (src/executor.go:230-232): the body is `return nil`,
regardless of the query's row count. -/
def SelectOne (table : String) (record : Record α) (whereStr : String)
    (args : List α) : Option String :=
  none

/-- `ErrNoRows` (src/db.go:9), aliasing `database/sql`'s sentinel. -/
def ErrNoRows : String := "sql: no rows in result set"

/-- The SQL text built by `executor.Delete`. -/
def deleteQuery (table whereStr : String) : String :=
  let base := "delete from " ++ table
  if 0 < whereStr.length then base ++ " where " ++ whereStr else base

/-- An observable event inside one batch's transactional scope, in the order
it happens: one per-record operation (`tx.Insert`/`tx.Update`/`tx.Save`),
`tx.Rollback()`, or `tx.Commit()`. -/
inductive TxEvent (α : Type) where
  | op : α → TxEvent α
  | rollback : TxEvent α
  | commit : TxEvent α
  deriving DecidableEq, Repr

/-- How a Go function call ends: a normal return carrying an optional error,
or a runtime fault (panic). -/
inductive GoResult (ε : Type) where
  | ret : Option ε → GoResult ε
  | panicked : GoResult ε
  deriving DecidableEq, Repr

/-- The `for _, v := range values` loop shared verbatim by `DB.MultiInsert`,
`DB.MultiUpdate` and `DB.MultiSave` (src/db.go): apply the per-record
operation to each value in order; on the first error call `tx.Rollback()` and
return that error; if every record succeeds, finish with `return tx.Commit()`. -/
def multiLoop (txOp : α → Option ε) : List α → List (TxEvent α) →
    List (TxEvent α) × GoResult ε
  | [], acc => (acc ++ [.commit], .ret none)
  | v :: vs, acc =>
      match txOp v with
      | none => multiLoop txOp vs (acc ++ [.op v])
      | some e => (acc ++ [.op v, .rollback], .ret (some e))

/-- `tx, err := d.Begin()` followed by the shared loop.  The error returned by
`Begin` is never tested: `err` is immediately overwritten inside the loop.
Modelled from the spec: the `Tx` handle (not under src/) wraps the driver
transaction and its methods are thin pass-throughs that dereference the
handle, so when `Begin` fails the handle is nil and the very first method
call on it — `tx.Insert`/`tx.Update`/`tx.Save` for a non-empty value list,
`tx.Commit` for an empty one — faults before any event is produced. -/
def multiRun (beginErr : Option ε) (txOp : α → Option ε) (values : List α) :
    List (TxEvent α) × GoResult ε :=
  match beginErr with
  | some _ => ([], .panicked)
  | none => multiLoop txOp values []

/-- `DB.MultiInsert` (src/db.go:88-98), with `tx.Insert` abstracted as the
per-record outcome `txInsert`. -/
def MultiInsert (beginErr : Option ε) (txInsert : α → Option ε)
    (values : List α) : List (TxEvent α) × GoResult ε :=
  multiRun beginErr txInsert values

/-- `DB.MultiUpdate` (src/db.go:104-114), with `tx.Update` abstracted as the
per-record outcome `txUpdate`. -/
def MultiUpdate (beginErr : Option ε) (txUpdate : α → Option ε)
    (values : List α) : List (TxEvent α) × GoResult ε :=
  multiRun beginErr txUpdate values

/-- `DB.MultiSave` (src/db.go:120-130), with `tx.Save` abstracted as the
per-record outcome `txSave`. -/
def MultiSave (beginErr : Option ε) (txSave : α → Option ε)
    (values : List α) : List (TxEvent α) × GoResult ε :=
  multiRun beginErr txSave values

theorem truncLast_concat (s : String) (c : Char) :
    truncLast (s ++ String.mk [c]) = s := by
  cases s with
  | mk l =>
      show truncLast (String.mk (l ++ [c])) = String.mk l
      simp [truncLast, List.dropLast_concat]

theorem stringsRepeat_qc (n : Nat) (h : 0 < n) :
    stringsRepeat "?," n = placeholders n ++ "," := by
  induction n with
  | zero => exact absurd h (by simp)
  | succ m ih =>
      cases m with
      | zero => rfl
      | succ k =>
          have hm : 0 < k + 1 := Nat.succ_pos k
          show "?," ++ stringsRepeat "?," (k + 1) = placeholders (k + 2) ++ ","
          rw [ih hm]
          show "?," ++ (placeholders (k + 1) ++ ",") = ("?," ++ placeholders (k + 1)) ++ ","
          rw [String.append_assoc]

theorem countQmarks_placeholders (n : Nat) : countQmarks (placeholders n) = n := by
  induction n with
  | zero => rfl
  | succ m ih =>
      cases m with
      | zero => rfl
      | succ k =>
          show countQmarks ("?," ++ placeholders (k + 1)) = k + 2
          have : ("?," ++ placeholders (k + 1)).data = '?' :: ',' :: (placeholders (k + 1)).data := by
            cases hp : placeholders (k + 1) with
            | mk l => rfl
          simp only [countQmarks, this, List.count_cons]
          have hk : (placeholders (k + 1)).data.count '?' = k + 1 := ih
          simp [hk]

theorem comma_eq_mk : ("," : String) = String.mk [','] := rfl

/-- For `N ≥ 1` columns the truncation turns the raw repeated `"?,"` into the
well-formed placeholder list. -/
theorem insertQuery_eq (table : String) (columns : List String)
    (h : 0 < columns.length) :
    insertQuery table columns =
      "insert into " ++ table ++ "(" ++ String.intercalate "," columns
        ++ ") values (" ++ placeholders columns.length ++ ")" := by
  unfold insertQuery
  rw [stringsRepeat_qc columns.length h, comma_eq_mk, ← String.append_assoc,
    truncLast_concat]

theorem setClauseRaw_eq (columns : List String) (h : columns ≠ []) :
    setClauseRaw columns = setClauseTrim columns ++ "," := by
  induction columns with
  | nil => exact absurd rfl h
  | cons c cs ih =>
      cases cs with
      | nil =>
          show c ++ " = ?," ++ "" = (c ++ " = ?") ++ ","
          rw [String.append_empty, String.append_assoc]
          rfl
      | cons c' cs' =>
          show c ++ " = ?," ++ setClauseRaw (c' :: cs') =
            (c ++ " = ?," ++ setClauseTrim (c' :: cs')) ++ ","
          rw [ih (by simp), ← String.append_assoc]

/-- For `N ≥ 1` columns the Upsert text is exactly the Insert text followed by
the on-duplicate-key suffix. -/
theorem upsertQuery_eq (table : String) (columns : List String)
    (h : 0 < columns.length) :
    upsertQuery table columns =
      insertQuery table columns ++ " on duplicate key set " ++ setClauseTrim columns := by
  have hne : columns ≠ [] := by
    cases columns with
    | nil => exact absurd h (by simp)
    | cons c cs => simp
  unfold upsertQuery insertQuery
  rw [setClauseRaw_eq columns hne, comma_eq_mk, ← String.append_assoc,
    truncLast_concat]
  have hsplit : (") on duplicate key set " : String) = ")" ++ " on duplicate key set " := rfl
  rw [hsplit]
  simp [String.append_assoc]

/-- For `N ≥ 1` columns the truncation gives the well-formed SET clause. -/
theorem updateQuery_eq (table : String) (columns : List String) (whereStr : String)
    (h : 0 < columns.length) :
    updateQuery table columns whereStr =
      (if 0 < whereStr.length then
        "update " ++ table ++ " set " ++ setClauseTrim columns ++ " where " ++ whereStr
      else "update " ++ table ++ " set " ++ setClauseTrim columns) := by
  have hne : columns ≠ [] := by
    cases columns with
    | nil => exact absurd h (by simp)
    | cons c cs => simp
  unfold updateQuery
  rw [setClauseRaw_eq columns hne, comma_eq_mk, ← String.append_assoc,
    truncLast_concat]

/-- A slot the scan never writes keeps its previous value. -/
theorem foldl_set_zip_notmem [Inhabited α] (js : List Nat) (rs : List α)
    (base : List α) (j : Nat) (hj : j ∉ js) :
    ((js.zip rs).foldl (fun e p => e.set p.1 p.2) base).getD j default
      = base.getD j default := by
  induction js generalizing rs base with
  | nil => rfl
  | cons j0 js' ih =>
      cases rs with
      | nil => rfl
      | cons r0 rs' =>
          have hj0 : j ≠ j0 := fun h => hj (h ▸ List.mem_cons_self j0 js')
          have hjs : j ∉ js' := fun h => hj (List.mem_cons_of_mem j0 h)
          show ((js'.zip rs').foldl (fun e p => e.set p.1 p.2)
              (base.set j0 r0)).getD j default = base.getD j default
          rw [ih rs' (base.set j0 r0) hjs]
          simp [List.getD, List.getElem?_set_ne (Ne.symm hj0)]

/-- Scanning writes the row's `i`-th column into the slot named by the `i`-th
cached field index. -/
theorem foldl_set_zip_get [Inhabited α] (js : List Nat) (rs : List α)
    (base : List α) (hnd : js.Nodup) (hlt : ∀ j ∈ js, j < base.length)
    (hlen : rs.length = js.length) (i : Nat) (hi : i < js.length) :
    ((js.zip rs).foldl (fun e p => e.set p.1 p.2) base).getD (js.getD i 0) default
      = rs.getD i default := by
  induction js generalizing rs base i with
  | nil => exact absurd hi (by simp)
  | cons j0 js' ih =>
      cases rs with
      | nil => exact absurd hlen (by simp)
      | cons r0 rs' =>
          have hnd' : js'.Nodup := (List.nodup_cons.mp hnd).2
          have hj0 : j0 ∉ js' := (List.nodup_cons.mp hnd).1
          cases i with
          | zero =>
              show ((js'.zip rs').foldl (fun e p => e.set p.1 p.2)
                  (base.set j0 r0)).getD j0 default = r0
              rw [foldl_set_zip_notmem js' rs' (base.set j0 r0) j0 hj0]
              have hlt0 : j0 < base.length := hlt j0 (List.mem_cons_self j0 js')
              simp [List.getD, List.getElem?_set_self, hlt0]
          | succ i' =>
              have hlt' : ∀ j ∈ js', j < (base.set j0 r0).length := by
                intro j hj
                rw [List.length_set]
                exact hlt j (List.mem_cons_of_mem j0 hj)
              have hlen' : rs'.length = js'.length := by
                simpa using hlen
              have hi' : i' < js'.length := by
                simpa using hi
              show ((js'.zip rs').foldl (fun e p => e.set p.1 p.2)
                  (base.set j0 r0)).getD (js'.getD i' 0) default = rs'.getD i' default
              exact ih rs' (base.set j0 r0) hnd' hlt' hlen' i' hi'

theorem scanRow_getD [Inhabited α] (fi : FieldInfo) (numFields : Nat)
    (row : List α) (hnd : fi.indexes.Nodup)
    (hlt : ∀ j ∈ fi.indexes, j < numFields)
    (hlen : row.length = fi.indexes.length)
    (i : Nat) (hi : i < fi.indexes.length) :
    (scanRow fi numFields row).getD (fi.indexes.getD i 0) default = row.getD i default := by
  unfold scanRow
  exact foldl_set_zip_get fi.indexes row (List.replicate numFields default)
    hnd (by simpa using hlt) hlen i hi

/-- When every record succeeds, the loop applies each in order and commits. -/
theorem multiLoop_all_ok (txOp : α → Option ε) (values : List α)
    (acc : List (TxEvent α)) (h : ∀ v ∈ values, txOp v = none) :
    multiLoop txOp values acc = (acc ++ values.map TxEvent.op ++ [.commit], .ret none) := by
  induction values generalizing acc with
  | nil => simp [multiLoop]
  | cons v vs ih =>
      have hv : txOp v = none := h v (List.mem_cons_self v vs)
      have hvs : ∀ u ∈ vs, txOp u = none := fun u hu => h u (List.mem_cons_of_mem v hu)
      simp [multiLoop, hv, ih (acc ++ [.op v]) hvs]

/-- A nonempty string has positive length. -/
theorem string_length_pos_of_ne_empty (s : String) (h : s ≠ "") : 0 < s.length := by
  cases s with
  | mk l =>
      cases l with
      | nil => exact absurd rfl h
      | cons c cs => simp [String.length]

/-- `getD` through `map` at an in-range position. -/
theorem getD_map_lt (f : β → α) (l : List β) (d : α) (db : β) (i : Nat)
    (h : i < l.length) :
    (l.map f).getD i d = f (l.getD i db) := by
  induction l generalizing i with
  | nil => exact absurd h (by simp)
  | cons x xs ih =>
      cases i with
      | zero => rfl
      | succ j => exact ih j (by simpa using h)

/-- On the first failing record the loop rolls back and returns that error. -/
theorem multiLoop_first_fail (txOp : α → Option ε) (good : List α) (bad : α)
    (rest : List α) (acc : List (TxEvent α)) (e : ε)
    (hgood : ∀ v ∈ good, txOp v = none) (hbad : txOp bad = some e) :
    multiLoop txOp (good ++ bad :: rest) acc =
      (acc ++ good.map TxEvent.op ++ [.op bad, .rollback], .ret (some e)) := by
  induction good generalizing acc with
  | nil => simp [multiLoop, hbad]
  | cons v vs ih =>
      have hv : txOp v = none := hgood v (List.mem_cons_self v vs)
      have hvs : ∀ u ∈ vs, txOp u = none := fun u hu => hgood u (List.mem_cons_of_mem v hu)
      simp [multiLoop, hv, ih (acc ++ [.op v]) hvs]

/-- C1: the spec claims SelectOne against a query matching zero rows returns
the distinguished not-found sentinel `ErrNoRows`.  The code's `SelectOne`
(src/executor.go:230-232) is `return nil`: for every call — in particular one
whose query matches zero rows — it returns success without the sentinel and
leaves the record untouched. -/
theorem c1_selectOne_never_errNoRows :
    ∀ (α : Type) (table : String) (record : Record α) (whereStr : String)
      (args : List α),
      SelectOne table record whereStr args = none ∧
      SelectOne table record whereStr args ≠ some ErrNoRows := by
  intro α table record whereStr args
  exact ⟨rfl, by simp [SelectOne]⟩

/-- C5 counterexample: Insert on the zero-column record
`map[string]interface{}{}` does not fault.  It returns normally, carrying the
malformed statement in which the final one-byte truncation has removed the
opening parenthesis of the VALUES list, and an empty argument list. -/
theorem c5_counterexample :
    Insert (α := Nat) "t" (.map []) = .ok ("insert into t() values )", []) := by
  rfl

/-- C5 amended: an Insert call whose record yields zero columns (e.g. the
empty map) does not fault: it builds the malformed statement
`insert into <table>() values )` and passes it with an empty argument list to
the executor. -/
theorem c5_zero_columns_builds_malformed (α : Type) [Inhabited α] (table : String) :
    Insert (α := α) table (.map []) =
      .ok ("insert into " ++ table ++ "() values )", []) := by
  have hq : insertQuery table [] = "insert into " ++ table ++ "() values )" := by
    show truncLast ("insert into " ++ table ++ "(" ++ "" ++ ") values (" ++ "") ++ ")" = _
    rw [String.append_empty, String.append_empty]
    have hsplit : (") values (" : String) = ") values " ++ String.mk ['('] := rfl
    rw [hsplit, ← String.append_assoc, truncLast_concat]
    simp only [String.append_assoc]
    congr 1
  show Except.ok (insertQuery table [], ([] : List α)) = _
  rw [hq]

/-- C9: contract violations fault before any SQL is generated: a nil/invalid
value, or one that is not a struct after stripping non-nil pointer
indirection, makes `getFields` — and hence Insert — panic; a destination that
is not a pointer to a slice of structs makes Select panic. -/
theorem c9_contract_violations_panic (α : Type) [Inhabited α] (table : String)
    (v : RValue α) (dest : Dest α)
    (hv : ∀ fi fields, derefs v ≠ RValue.structV fi fields)
    (hd : ∀ d, dest ≠ Dest.ok d) :
    (∃ p, getFields v = .error p) ∧
    (∃ p, Insert table (.val v) = .error p) ∧
    (∀ whereStr rowsResult, ∃ p, Select table dest whereStr rowsResult = .error p) := by
  have hg : ∀ w : RValue α, (∀ fi fields, derefs w ≠ RValue.structV fi fields) →
      ∃ p, getFields w = .error p := by
    intro w
    induction w with
    | invalid => exact fun _ => ⟨.invalid, rfl⟩
    | ptrNil => exact fun _ => ⟨.notStruct, rfl⟩
    | nonStruct => exact fun _ => ⟨.notStruct, rfl⟩
    | structV fi fields => exact fun hw => absurd rfl (hw fi fields)
    | ptr v' ih => exact fun hw => ih hw
  obtain ⟨p, hp⟩ := hg v hv
  refine ⟨⟨p, hp⟩, ⟨p, ?_⟩, ?_⟩
  · show (do
        let cv ← getFields v
        Except.ok (insertQuery table cv.1, cv.2)) = Except.error p
    rw [hp]
    rfl
  · intro whereStr rowsResult
    cases dest with
    | nonPtr => exact ⟨.notPtrSlice, rfl⟩
    | nilPtr => exact ⟨.cannotSet, rfl⟩
    | ptrToNonSlice => exact ⟨.notPtrSlice, rfl⟩
    | ptrToSliceNonStructElem => exact ⟨.elemNotStruct, rfl⟩
    | ok d => exact absurd rfl (hd d)

/-- Witness for C9: a plain non-struct passed for field extraction and a
non-pointer destination passed to Select both panic. -/
theorem c9_witness :
    (∃ p, getFields (RValue.nonStruct : RValue Nat) = .error p) ∧
    (∃ p, Insert "users" (Record.val (RValue.nonStruct : RValue Nat)) = .error p) ∧
    (∀ whereStr rowsResult,
      ∃ p, Select "users" (Dest.nonPtr : Dest Nat) whereStr rowsResult = .error p) :=
  c9_contract_violations_panic Nat "users" RValue.nonStruct Dest.nonPtr
    (fun fi fields h => RValue.noConfusion h)
    (fun d h => Dest.noConfusion h)

/-- C10: in every batch operation the error returned by Begin is discarded:
when Begin fails while at least one value is supplied, the operation faults on
the nil transaction handle instead of returning Begin's error. -/
theorem c10_begin_error_discarded (α ε : Type) (e : ε) (txOp : α → Option ε)
    (values : List α) (h : values ≠ []) :
    ((MultiInsert (some e) txOp values).2 = .panicked ∧
      (MultiInsert (some e) txOp values).2 ≠ .ret (some e)) ∧
    ((MultiUpdate (some e) txOp values).2 = .panicked ∧
      (MultiUpdate (some e) txOp values).2 ≠ .ret (some e)) ∧
    ((MultiSave (some e) txOp values).2 = .panicked ∧
      (MultiSave (some e) txOp values).2 ≠ .ret (some e)) := by
  refine ⟨⟨rfl, ?_⟩, ⟨rfl, ?_⟩, ⟨rfl, ?_⟩⟩ <;>
    simp [MultiInsert, MultiUpdate, MultiSave, multiRun]

/-- Witness for C10: Begin fails with one record supplied; the batch faults
and `boom` is never returned. -/
theorem c10_witness :
    ([1] : List Nat) ≠ [] ∧
    (MultiInsert (some "boom") (fun _ => (none : Option String)) [1]).2 = .panicked ∧
    (MultiInsert (some "boom") (fun _ => (none : Option String)) [1]).2
      ≠ .ret (some "boom") := by
  refine ⟨by simp, ?_, ?_⟩
  · exact (c10_begin_error_discarded Nat String "boom" (fun _ => none) [1] (by simp)).1.1
  · exact (c10_begin_error_discarded Nat String "boom" (fun _ => none) [1] (by simp)).1.2

/-- C3: for a typed record whose cached FieldInfo has N ≥ 1 columns, Insert
builds `insert into <table>(<c1,...,cN>) values (<placeholders>)` with exactly
N `?` placeholders and passes an argument list of length exactly N whose i-th
value is the i-th mapped field's value in cached column order. -/
theorem c3_insert_placeholders_and_args (α : Type) [Inhabited α] (table : String)
    (fi : FieldInfo) (fields : List α)
    (hN : 0 < fi.names.length) (hlen : fi.indexes.length = fi.names.length) :
    ∃ args : List α,
      Insert table (.val (.structV fi fields)) =
        .ok ("insert into " ++ table ++ "(" ++ String.intercalate "," fi.names
          ++ ") values (" ++ placeholders fi.names.length ++ ")", args) ∧
      countQmarks (placeholders fi.names.length) = fi.names.length ∧
      args.length = fi.names.length ∧
      ∀ i, i < fi.names.length →
        args.getD i default = fields.getD (fi.indexes.getD i 0) default := by
  refine ⟨fi.indexes.map (fun idx => fields.getD idx default), ?_,
    countQmarks_placeholders _, by simp [hlen], ?_⟩
  · show Except.ok
        (insertQuery table fi.names, fi.indexes.map (fun idx => fields.getD idx default)) = _
    rw [insertQuery_eq table fi.names hN]
  · intro i hi
    exact getD_map_lt (fun idx => fields.getD idx default) fi.indexes default 0 i
      (by rw [hlen]; exact hi)

/-- Witness for C3 at the spec's own example: two columns `id,name`. -/
theorem c3_witness :
    ∃ args : List Nat,
      Insert "users" (.val (.structV ⟨["id", "name"], [0, 1]⟩ [7, 8])) =
        .ok ("insert into users(id,name) values (?,?)", args) ∧
      countQmarks (placeholders 2) = 2 ∧
      args.length = 2 ∧
      ∀ i, i < 2 → args.getD i default = [7, 8].getD ([0, 1].getD i 0) default :=
  c3_insert_placeholders_and_args Nat "users" ⟨["id", "name"], [0, 1]⟩ [7, 8]
    (by decide) (by decide)

/-- C4: Upsert builds the same INSERT text Insert builds, followed by the
on-duplicate-key suffix assigning one placeholder per column, and its argument
list is the N column values twice in identical order — length exactly 2N. -/
theorem c4_upsert_prefix_and_double_args (α : Type) [Inhabited α] (table : String)
    (fi : FieldInfo) (fields : List α)
    (hN : 0 < fi.names.length) (hlen : fi.indexes.length = fi.names.length) :
    ∃ (qi : String) (args : List α),
      Insert table (.val (.structV fi fields)) = .ok (qi, args) ∧
      Upsert table (.val (.structV fi fields)) =
        .ok (qi ++ " on duplicate key set " ++ setClauseTrim fi.names, args ++ args) ∧
      (args ++ args).length = 2 * fi.names.length ∧
      ∀ i, i < fi.names.length →
        (args ++ args).getD i default = args.getD i default ∧
        (args ++ args).getD (fi.names.length + i) default = args.getD i default := by
  refine ⟨insertQuery table fi.names,
    fi.indexes.map (fun idx => fields.getD idx default), rfl, ?_, ?_, ?_⟩
  · show Except.ok
        (upsertQuery table fi.names,
          fi.indexes.map (fun idx => fields.getD idx default)
            ++ fi.indexes.map (fun idx => fields.getD idx default)) = _
    rw [upsertQuery_eq table fi.names hN]
  · simp [hlen, Nat.two_mul]
  · intro i hi
    have hla : (fi.indexes.map (fun idx => fields.getD idx default)).length
        = fi.names.length := by simp [hlen]
    constructor
    · exact List.getD_append _ _ _ _ (by rw [hla]; exact hi)
    · rw [List.getD_append_right _ _ _ _ (by rw [hla]; exact Nat.le_add_right _ _), hla,
        Nat.add_sub_cancel_left]

/-- Witness for C4: two columns, argument list of length 4 with the two values
repeated in order. -/
theorem c4_witness :
    ∃ (qi : String) (args : List Nat),
      Insert "users" (.val (.structV ⟨["id", "name"], [0, 1]⟩ [7, 8])) = .ok (qi, args) ∧
      Upsert "users" (.val (.structV ⟨["id", "name"], [0, 1]⟩ [7, 8])) =
        .ok (qi ++ " on duplicate key set " ++ setClauseTrim ["id", "name"],
          args ++ args) ∧
      (args ++ args).length = 2 * 2 ∧
      ∀ i, i < 2 →
        (args ++ args).getD i default = args.getD i default ∧
        (args ++ args).getD (2 + i) default = args.getD i default :=
  c4_upsert_prefix_and_double_args Nat "users" ⟨["id", "name"], [0, 1]⟩ [7, 8]
    (by decide) (by decide)

/-- C2: Select's query uses the full cached FieldInfo column list — never a
subset — and the destination bound at scan position i is the field at
FieldInfo index i: after scanning a row, the struct slot named by
`fi.indexes[i]` holds the row's column i, so the query's column order and the
scan-target order are identical. -/
theorem c2_select_full_columns_aligned_scan (α : Type) [Inhabited α]
    (table whereStr : String) (d : SliceDest α) (rows : List (List α))
    (row : List α) (i : Nat)
    (hnd : d.fi.indexes.Nodup) (hlt : ∀ j ∈ d.fi.indexes, j < d.numFields)
    (hrow : row.length = d.fi.indexes.length) (hi : i < d.fi.indexes.length) :
    Select table (.ok d) whereStr (.ok rows) =
      .ok ⟨"select " ++ String.intercalate "," d.fi.names ++ " from " ++ table
            ++ (if 0 < whereStr.length then " where " ++ whereStr else ""),
          .ok (d.contents ++ rows.map (scanRow d.fi d.numFields))⟩ ∧
    (scanRow d.fi d.numFields row).getD (d.fi.indexes.getD i 0) default
      = row.getD i default := by
  constructor
  · show Except.ok
        (SelectOutcome.mk (selectQueryStr d.fi table whereStr)
          (.ok (d.contents ++ rows.map (scanRow d.fi d.numFields)))) = _
    unfold selectQueryStr
    by_cases hw : 0 < whereStr.length
    · simp [hw, String.append_assoc]
    · simp [hw]
  · exact scanRow_getD d.fi d.numFields row hnd hlt hrow i hi

/-- Witness for C2: columns `a,b` mapped to field indexes 1 and 0; column 0
of the row lands in field 1 and column 1 in field 0. -/
theorem c2_witness :
    Select "users" (.ok ⟨false, ⟨["a", "b"], [1, 0]⟩, 2, []⟩) "id = ?"
        (.ok [[10, 20]]) =
      .ok ⟨"select " ++ String.intercalate "," ["a", "b"] ++ " from " ++ "users"
            ++ (if 0 < ("id = ?" : String).length then " where " ++ "id = ?" else ""),
          .ok ([] ++ [[(10 : Nat), 20]].map
            (scanRow ⟨["a", "b"], [1, 0]⟩ 2))⟩ ∧
    (scanRow ⟨["a", "b"], [1, 0]⟩ 2 [(10 : Nat), 20]).getD ([1, 0].getD 0 0) default
      = [(10 : Nat), 20].getD 0 default :=
  c2_select_full_columns_aligned_scan Nat "users" "id = ?"
    ⟨false, ⟨["a", "b"], [1, 0]⟩, 2, []⟩ [[10, 20]] [10, 20] 0
    (by decide) (by decide) (by decide) (by decide)

/-- C6: Select into an uninitialized (nil, hence empty) collection appends the
reconstructed elements in row-iteration order starting from the empty
collection; zero rows completes successfully with the empty collection; and in
general elements are appended after the existing contents in row order. -/
theorem c6_select_nil_collection_append_order (α : Type) [Inhabited α]
    (table whereStr : String) (b : Bool) (fi : FieldInfo) (n : Nat)
    (rows : List (List α)) (d : SliceDest α) :
    Select table (.ok ⟨b, fi, n, []⟩) whereStr (.ok rows) =
      .ok ⟨selectQueryStr fi table whereStr, .ok (rows.map (scanRow fi n))⟩ ∧
    Select (α := α) table (.ok ⟨b, fi, n, []⟩) whereStr (.ok []) =
      .ok ⟨selectQueryStr fi table whereStr, .ok []⟩ ∧
    Select table (.ok d) whereStr (.ok rows) =
      .ok ⟨selectQueryStr d.fi table whereStr,
          .ok (d.contents ++ rows.map (scanRow d.fi d.numFields))⟩ :=
  ⟨rfl, rfl, rfl⟩

/-- C7: Update's argument list is the SET values in cached column order
followed by the caller's WHERE arguments; a non-empty WHERE string is
concatenated verbatim after `" where "`, and an empty WHERE string emits no
WHERE clause at all. -/
theorem c7_update_where_verbatim_args_order (α : Type) [Inhabited α]
    (table : String) (fi : FieldInfo) (fields : List α) (whereStr : String)
    (args : List α)
    (hN : 0 < fi.names.length) (hlen : fi.indexes.length = fi.names.length) :
    ∃ vals : List α,
      vals.length = fi.names.length ∧
      (∀ i, i < fi.names.length →
        vals.getD i default = fields.getD (fi.indexes.getD i 0) default) ∧
      (whereStr ≠ "" →
        Update table (.val (.structV fi fields)) whereStr args =
          .ok ("update " ++ table ++ " set " ++ setClauseTrim fi.names
            ++ " where " ++ whereStr, vals ++ args)) ∧
      Update table (.val (.structV fi fields)) "" args =
        .ok ("update " ++ table ++ " set " ++ setClauseTrim fi.names, vals ++ args) := by
  refine ⟨fi.indexes.map (fun idx => fields.getD idx default), by simp [hlen], ?_, ?_, ?_⟩
  · intro i hi
    exact getD_map_lt (fun idx => fields.getD idx default) fi.indexes default 0 i
      (by rw [hlen]; exact hi)
  · intro hw
    have hwpos : 0 < whereStr.length := string_length_pos_of_ne_empty whereStr hw
    show Except.ok
        (updateQuery table fi.names whereStr,
          fi.indexes.map (fun idx => fields.getD idx default) ++ args) = _
    rw [updateQuery_eq table fi.names whereStr hN]
    simp [hwpos]
  · show Except.ok
        (updateQuery table fi.names "",
          fi.indexes.map (fun idx => fields.getD idx default) ++ args) = _
    rw [updateQuery_eq table fi.names "" hN]
    simp

/-- Witness for C7: two columns, one WHERE argument. -/
theorem c7_witness :
    ∃ vals : List Nat,
      vals.length = 2 ∧
      (∀ i, i < 2 → vals.getD i default = [7, 8].getD ([0, 1].getD i 0) default) ∧
      (("id = ?" : String) ≠ "" →
        Update "users" (.val (.structV ⟨["id", "name"], [0, 1]⟩ [7, 8])) "id = ?" [9] =
          .ok ("update " ++ "users" ++ " set " ++ setClauseTrim ["id", "name"]
            ++ " where " ++ "id = ?", vals ++ [9])) ∧
      Update "users" (.val (.structV ⟨["id", "name"], [0, 1]⟩ [7, 8])) "" [9] =
        .ok ("update " ++ "users" ++ " set " ++ setClauseTrim ["id", "name"],
          vals ++ [9]) :=
  c7_update_where_verbatim_args_order Nat "users" ⟨["id", "name"], [0, 1]⟩ [7, 8]
    "id = ?" [9] (by decide) (by decide)

/-- C8: each batch operation applies the records sequentially inside the one
transactional scope obtained from Begin; on the first per-record failure the
scope is rolled back before that error is returned and no commit happens,
and only when every record succeeds does the batch commit — all-or-nothing. -/
theorem c8_batch_all_or_nothing (α ε : Type) (txOp : α → Option ε)
    (good : List α) (bad : α) (rest : List α) (e : ε)
    (hgood : ∀ v ∈ good, txOp v = none) (hbad : txOp bad = some e) :
    (MultiInsert none txOp (good ++ bad :: rest) =
        (good.map TxEvent.op ++ [.op bad, .rollback], .ret (some e)) ∧
      MultiUpdate none txOp (good ++ bad :: rest) =
        (good.map TxEvent.op ++ [.op bad, .rollback], .ret (some e)) ∧
      MultiSave none txOp (good ++ bad :: rest) =
        (good.map TxEvent.op ++ [.op bad, .rollback], .ret (some e))) ∧
    TxEvent.commit ∉ (MultiInsert none txOp (good ++ bad :: rest)).1 ∧
    ∀ ws : List α, (∀ v ∈ ws, txOp v = none) →
      MultiInsert none txOp ws = (ws.map TxEvent.op ++ [.commit], .ret none) ∧
      MultiUpdate none txOp ws = (ws.map TxEvent.op ++ [.commit], .ret none) ∧
      MultiSave none txOp ws = (ws.map TxEvent.op ++ [.commit], .ret none) := by
  have hfail : multiLoop txOp (good ++ bad :: rest) [] =
      (good.map TxEvent.op ++ [.op bad, .rollback], .ret (some e)) := by
    simpa using multiLoop_first_fail txOp good bad rest [] e hgood hbad
  refine ⟨⟨hfail, hfail, hfail⟩, ?_, ?_⟩
  · show TxEvent.commit ∉ (multiLoop txOp (good ++ bad :: rest) []).1
    rw [hfail]
    simp
  · intro ws hws
    have hok : multiLoop txOp ws [] = (ws.map TxEvent.op ++ [.commit], .ret none) := by
      simpa using multiLoop_all_ok txOp ws [] hws
    exact ⟨hok, hok, hok⟩

/-- Witness for C8: of four records the third fails; the first two are
applied, the scope rolls back, the error is returned, and nothing commits. -/
theorem c8_witness :
    (MultiInsert none (fun n => if n == 2 then some "boom" else none) [0, 1, 2, 3] =
        ([.op 0, .op 1, .op 2, .rollback], .ret (some "boom")) ∧
      MultiUpdate none (fun n => if n == 2 then some "boom" else none) [0, 1, 2, 3] =
        ([.op 0, .op 1, .op 2, .rollback], .ret (some "boom")) ∧
      MultiSave none (fun n => if n == 2 then some "boom" else none) [0, 1, 2, 3] =
        ([.op 0, .op 1, .op 2, .rollback], .ret (some "boom"))) ∧
    TxEvent.commit ∉
      (MultiInsert none (fun n => if n == 2 then some "boom" else none)
        [0, 1, 2, 3]).1 ∧
    ∀ ws : List Nat,
      (∀ v ∈ ws, (fun n => if n == 2 then some "boom" else none) v = none) →
      MultiInsert none (fun n => if n == 2 then some "boom" else none) ws =
        (ws.map TxEvent.op ++ [.commit], .ret none) ∧
      MultiUpdate none (fun n => if n == 2 then some "boom" else none) ws =
        (ws.map TxEvent.op ++ [.commit], .ret none) ∧
      MultiSave none (fun n => if n == 2 then some "boom" else none) ws =
        (ws.map TxEvent.op ++ [.commit], .ret none) :=
  c8_batch_all_or_nothing Nat String (fun n => if n == 2 then some "boom" else none)
    [0, 1] 2 [3] "boom" (by decide) (by decide)

end GoSql
